import Mathlib

/-!
Verification of the vehicle-maintenance webapp core: the signal normalizer
(`loadVehicleDetails` in the vehicle-details page component), the maintenance
record store adapter (the SQL in the backend server plus `migrations.js`), the
document-extraction pipeline (`/api/ai/extract-maintenance` route handler) and
the maintenance-plan projector (`generateUpcomingServices` in
`openai-service.js`).

JavaScript strings are modelled as `List Char`, JavaScript numbers as `ℚ`
(all numbers reaching the modelled code are finite), and JSON values as the
inductive type `Json` below.  `Option` models `undefined`/nullable positions.
-/

/-- JSON value produced by `JSON.parse`, also used as the model of the dynamic
JavaScript values flowing through the extraction pipeline.  Object fields are
kept in source order; duplicate keys are resolved by `getField` taking the
last occurrence, as `JSON.parse` does. -/
inductive Json where
  | null
  | bool (b : Bool)
  | num (q : ℚ)
  | str (s : List Char)
  | arr (elems : List Json)
  | obj (fields : List (List Char × Json))

/-- JavaScript truthiness of a `Json` value: `null`, `false`, `0` and the
empty string are falsy; objects and arrays are always truthy. -/
def jsTruthy : Json → Bool
  | .null => false
  | .bool b => b
  | .num q => decide (q ≠ 0)
  | .str s => decide (s ≠ [])
  | .arr _ => true
  | .obj _ => true

/-- Truthiness of a possibly-`undefined` value (`none` models `undefined`). -/
def jsTruthyOpt : Option Json → Bool
  | none => false
  | some v => jsTruthy v

/-- The JavaScript `a || b` operator on possibly-undefined values. -/
def jsOr (a b : Option Json) : Option Json :=
  if jsTruthyOpt a then a else b

/-- Last-occurrence association lookup, matching the key-overwrite behaviour of
`JSON.parse` on duplicate keys. -/
def lookupLast (k : List Char) : List (List Char × Json) → Option Json
  | [] => none
  | (k2, v) :: rest =>
    match lookupLast k rest with
    | some r => some r
    | none => if k2 = k then some v else none

/-- Property access `v?.k`: `undefined` on anything but an object carrying the
key (numbers, strings, booleans, arrays and `null` have no such property). -/
def getField (v : Option Json) (k : List Char) : Option Json :=
  match v with
  | some (.obj fields) => lookupLast k fields
  | _ => none

/- ### Decimal digits and number parsing helpers -/

/-- The character for a decimal digit value. -/
def digitChar (d : Nat) : Char := Char.ofNat (48 + d)

/-- Numeric value of a decimal digit character. -/
def parseDigitVal (c : Char) : Nat := c.toNat - 48

/-- Value of a string of decimal digits, most significant first. -/
def parseDigitsNat (cs : List Char) : Nat :=
  cs.foldl (fun a c => a * 10 + parseDigitVal c) 0

/-- Little-endian digit characters of `n`, with `fuel ≥ n` ensuring
termination structurally. -/
def natToCharsAux : Nat → Nat → List Char
  | 0, _ => []
  | _ + 1, 0 => []
  | fuel + 1, n => digitChar (n % 10) :: natToCharsAux fuel (n / 10)

/-- Decimal rendering of a natural number. -/
def natToChars (n : Nat) : List Char :=
  if n = 0 then ['0'] else (natToCharsAux n n).reverse

/-- Decimal rendering of an integer. -/
def intToChars (i : Int) : List Char :=
  (if i < 0 then ['-'] else []) ++ natToChars i.natAbs

/-- Decimal digits of the fractional part `num/den`, with fuel bounding the
number of emitted digits (idealizes JavaScript float formatting). -/
def fracCharsAux : Nat → Nat → Nat → List Char
  | 0, _, _ => []
  | _ + 1, 0, _ => []
  | fuel + 1, n, den => digitChar (n * 10 / den) :: fracCharsAux fuel (n * 10 % den) den

/-- Decimal rendering of a rational; exact when the denominator is a product
of 2s and 5s, truncated otherwise (JavaScript numbers reaching this point are
binary floats, so this is an idealization; no claim depends on its digits). -/
def qToChars (q : ℚ) : List Char :=
  (if q < 0 then ['-'] else []) ++
    natToChars (q.num.natAbs / q.den) ++
    (if q.den = 1 then [] else '.' :: fracCharsAux 30 (q.num.natAbs % q.den) q.den)

/- ### String coercion (`String(v)` / array join), as used by `parseMoney` -/

mutual

/-- JavaScript `String(v)` coercion of a `Json` value.  Arrays join their
elements with commas (`null` elements become empty), objects print as
`[object Object]`. -/
def jsToString : Json → List Char
  | .null => []
  | .bool b => if b then 't' :: 'r' :: 'u' :: 'e' :: [] else 'f' :: 'a' :: 'l' :: 's' :: 'e' :: []
  | .num q => qToChars q
  | .str s => s
  | .arr l => jsToStringElems l
  | .obj _ => '[' :: 'o' :: 'b' :: 'j' :: 'e' :: 'c' :: 't' :: ' ' :: 'O' :: 'b' :: 'j' :: 'e' :: 'c' :: 't' :: ']' :: []

/-- Comma-joined element strings of an array under `String` coercion. -/
def jsToStringElems : List Json → List Char
  | [] => []
  | [j] => jsToString j
  | j :: js => jsToString j ++ ',' :: jsToStringElems js

end

/- ### `parseInt`, `parseFloat` and the monetary parser -/

/-- Whitespace for the purposes of `String.prototype.trim` and the `\s`
regex class (the common ASCII cases; the sources only ever produce spaces,
tabs, carriage returns and newlines here). -/
def isWsChar (c : Char) : Bool :=
  c = ' ' || c = '\t' || c = '\n' || c = '\r' || c = Char.ofNat 11 || c = Char.ofNat 12

/-- `parseInt(s, 10)`: skip leading whitespace, optional sign, then the
longest run of decimal digits; `none` models `NaN`. -/
def parseIntJs (s : List Char) : Option Int :=
  let s1 := s.dropWhile isWsChar
  let (neg, s2) :=
    match s1 with
    | '-' :: r => (true, r)
    | '+' :: r => (false, r)
    | _ => (false, s1)
  let ds := s2.takeWhile Char.isDigit
  if ds.isEmpty then none
  else some ((if neg then -1 else 1) * (parseDigitsNat ds : Int))

/-- `parseFloat` restricted to strings over the alphabet `0-9 . -` (the only
strings `parseMoney` feeds it, after stripping): optional leading minus, then
the longest `digits [. digits]` prefix; `none` models `NaN`.  Exponents need
an `e`, which the stripping removes, so they cannot occur. -/
def parseFloatQ (s : List Char) : Option ℚ :=
  let (neg, s1) :=
    match s with
    | '-' :: r => (true, r)
    | _ => (false, s)
  let intDs := s1.takeWhile Char.isDigit
  let rest := s1.dropWhile Char.isDigit
  let fracDs :=
    match rest with
    | '.' :: r2 => r2.takeWhile Char.isDigit
    | _ => []
  if intDs.isEmpty && fracDs.isEmpty then none
  else
    some (mkRat
      ((if neg then -1 else 1) *
        ((parseDigitsNat intDs : Int) * 10 ^ fracDs.length + (parseDigitsNat fracDs : Int)))
      (10 ^ fracDs.length))

/-- The `replace(/[^0-9.\-]/g, '')` stripping in `parseMoney`. -/
def stripMoney (s : List Char) : List Char :=
  s.filter (fun c => c.isDigit || c = '.' || c = '-')

/-- `parseMoney` from the extract-maintenance route handler:

    const parseMoney = (v) => {
      if (v == null) return null
      const n = typeof v === 'number' ? v : parseFloat(String(v).replace(/[^0-9.\-]/g, ''))
      return Number.isFinite(n) ? n : null
    }

`none` as input models `undefined`; `v == null` matches both `null` and
`undefined`.  Numbers pass through unchanged (every number in the model is
finite, as are all numbers `JSON.parse` can produce). -/
def parseMoney : Option Json → Option ℚ
  | none => none
  | some .null => none
  | some (.num q) => some q
  | some v => parseFloatQ (stripMoney (jsToString v))

/- ### Markdown code-fence stripping (shared by both pipelines) -/

/-- Backtick, written via its code point to keep it out of patterns. -/
def tick : Char := Char.ofNat 96

/-- Opening curly brace. -/
def lbrace : Char := Char.ofNat 123

/-- Closing curly brace. -/
def rbrace : Char := Char.ofNat 125

/-- Drop the longest suffix of characters satisfying `p`. -/
def dropTrailingBy (p : Char → Bool) (cs : List Char) : List Char :=
  (cs.reverse.dropWhile p).reverse

/-- `String.prototype.trim`. -/
def trimChars (cs : List Char) : List Char :=
  dropTrailingBy isWsChar (cs.dropWhile isWsChar)

/-- `replace(/^```json\s*/i, '')`: if the text starts with a backtick fence
followed by `json` (any case), remove it together with the following
whitespace run; otherwise leave the text unchanged. -/
def stripJsonFencePrefix (cs : List Char) : List Char :=
  if cs.take 3 = [tick, tick, tick] ∧
      ((cs.drop 3).take 4).map Char.toLower = ['j', 's', 'o', 'n'] then
    (cs.drop 7).dropWhile isWsChar
  else cs

/-- `replace(/^```\s*/i, '')`. -/
def stripFencePrefix (cs : List Char) : List Char :=
  if cs.take 3 = [tick, tick, tick] then (cs.drop 3).dropWhile isWsChar else cs

/-- `replace(/```\s*$/i, '')`: the only position at which `/```\s*$/` can
match is a trailing triple backtick followed exclusively by whitespace, so
the replacement removes exactly that suffix when present. -/
def stripFenceSuffix (cs : List Char) : List Char :=
  if (cs.reverse.dropWhile isWsChar).take 3 = [tick, tick, tick] then
    ((cs.reverse.dropWhile isWsChar).drop 3).reverse
  else cs

/-- The fence-stripping sequence applied to a raw model reply, exactly as in
both the extract-maintenance route handler and `generateUpcomingServices`:

    raw.trim()
      .replace(/^```json\s*/i, '')
      .replace(/^```\s*/i, '')
      .replace(/```\s*$/i, '')
-/
def cleanFences (raw : List Char) : List Char :=
  stripFenceSuffix (stripFencePrefix (stripJsonFencePrefix (trimChars raw)))

/- ### A JSON parser modelling `JSON.parse` -/

/-- JSON insignificant whitespace. -/
def isJsonWs (c : Char) : Bool :=
  c = ' ' || c = '\t' || c = '\n' || c = '\r'

/-- Skip insignificant whitespace. -/
def skipWs (cs : List Char) : List Char := cs.dropWhile isJsonWs

/-- Hexadecimal digit value. -/
def hexVal (c : Char) : Option Nat :=
  if c.isDigit then some (c.toNat - 48)
  else if 'a' ≤ c && c ≤ 'f' then some (c.toNat - 87)
  else if 'A' ≤ c && c ≤ 'F' then some (c.toNat - 55)
  else none

/-- Single-character JSON string escapes. -/
def escChar (c : Char) : Option Char :=
  if c = '"' then some '"'
  else if c = '\\' then some '\\'
  else if c = '/' then some '/'
  else if c = 'b' then some (Char.ofNat 8)
  else if c = 'f' then some (Char.ofNat 12)
  else if c = 'n' then some '\n'
  else if c = 'r' then some '\r'
  else if c = 't' then some '\t'
  else none

/-- Parse the body of a JSON string literal (after the opening quote), up to
and including the closing quote; returns the decoded content and the rest. -/
def parseStringBody : Nat → List Char → Option (List Char × List Char)
  | 0, _ => none
  | _ + 1, [] => none
  | fuel + 1, c :: cs =>
    if c = '"' then some ([], cs)
    else if c = '\\' then
      match cs with
      | 'u' :: a :: b :: c2 :: d :: cs2 =>
        match hexVal a, hexVal b, hexVal c2, hexVal d with
        | some ha, some hb, some hc, some hd =>
          (parseStringBody fuel cs2).map
            (fun p => (Char.ofNat (((ha * 16 + hb) * 16 + hc) * 16 + hd) :: p.1, p.2))
        | _, _, _, _ => none
      | e :: cs2 =>
        match escChar e with
        | some d => (parseStringBody fuel cs2).map (fun p => (d :: p.1, p.2))
        | none => none
      | [] => none
    else (parseStringBody fuel cs).map (fun p => (c :: p.1, p.2))

/-- Parse a JSON number token; `none` on anything outside the JSON number
grammar (no leading zeros, a dot or exponent must be followed by digits). -/
def parseNumberTok (cs : List Char) : Option (ℚ × List Char) :=
  let (neg, s1) :=
    match cs with
    | '-' :: r => (true, r)
    | _ => (false, cs)
  let intDs := s1.takeWhile Char.isDigit
  let r1 := s1.dropWhile Char.isDigit
  if intDs.isEmpty then none
  else if 1 < intDs.length && intDs.headD ' ' = '0' then none
  else
    let fr : Option (Nat × Nat × List Char) :=
      match r1 with
      | '.' :: rr =>
        let f := rr.takeWhile Char.isDigit
        if f.isEmpty then none
        else some (parseDigitsNat f, f.length, rr.dropWhile Char.isDigit)
      | _ => some (0, 0, r1)
    match fr with
    | none => none
    | some (fv, fl, r2) =>
      let ex : Option (Int × List Char) :=
        match r2 with
        | e :: rr =>
          if e = 'e' || e = 'E' then
            let (esgn, rr2) :=
              match rr with
              | '-' :: z => ((-1 : Int), z)
              | '+' :: z => ((1 : Int), z)
              | _ => ((1 : Int), rr)
            let eds := rr2.takeWhile Char.isDigit
            if eds.isEmpty then none
            else some (esgn * (parseDigitsNat eds : Int), rr2.dropWhile Char.isDigit)
          else some (0, r2)
        | [] => some (0, [])
      match ex with
      | none => none
      | some (ev, r3) =>
        let base : Int :=
          (if neg then -1 else 1) * ((parseDigitsNat intDs : Int) * 10 ^ fl + (fv : Int))
        let e : Int := ev - (fl : Int)
        let mag : ℚ :=
          if 0 ≤ e then mkRat (base * 10 ^ e.toNat) 1 else mkRat base (10 ^ (-e).toNat)
        some (mag, r3)

mutual

/-- Parse one JSON value (leading whitespace allowed), returning it and the
unconsumed rest; fuel bounds the bracket-nesting recursion. -/
def parseVal : Nat → List Char → Option (Json × List Char)
  | 0, _ => none
  | fuel + 1, cs =>
    match skipWs cs with
    | [] => none
    | c :: rest =>
      if c = lbrace then
        match skipWs rest with
        | c2 :: rest2 =>
          if c2 = rbrace then some (.obj [], rest2)
          else (parseMembers fuel (c2 :: rest2)).map (fun p => (.obj p.1, p.2))
        | [] => none
      else if c = '[' then
        match skipWs rest with
        | c2 :: rest2 =>
          if c2 = ']' then some (.arr [], rest2)
          else (parseElems fuel (c2 :: rest2)).map (fun p => (.arr p.1, p.2))
        | [] => none
      else if c = '"' then
        (parseStringBody (rest.length + 1) rest).map (fun p => (.str p.1, p.2))
      else if c = 't' then
        match rest with
        | 'r' :: 'u' :: 'e' :: r => some (.bool true, r)
        | _ => none
      else if c = 'f' then
        match rest with
        | 'a' :: 'l' :: 's' :: 'e' :: r => some (.bool false, r)
        | _ => none
      else if c = 'n' then
        match rest with
        | 'u' :: 'l' :: 'l' :: r => some (.null, r)
        | _ => none
      else
        (parseNumberTok (c :: rest)).map (fun p => (.num p.1, p.2))

/-- Parse the comma-separated elements of a nonempty array, up to and
including the closing bracket. -/
def parseElems : Nat → List Char → Option (List Json × List Char)
  | 0, _ => none
  | fuel + 1, cs =>
    match parseVal fuel cs with
    | none => none
    | some (v, rest) =>
      match skipWs rest with
      | ',' :: rest2 => (parseElems fuel rest2).map (fun p => (v :: p.1, p.2))
      | c :: rest2 => if c = ']' then some ([v], rest2) else none
      | [] => none

/-- Parse the members of a nonempty object, up to and including the closing
brace. -/
def parseMembers : Nat → List Char → Option (List (List Char × Json) × List Char)
  | 0, _ => none
  | fuel + 1, cs =>
    match skipWs cs with
    | '"' :: rest =>
      match parseStringBody (rest.length + 1) rest with
      | none => none
      | some (k, rest2) =>
        match skipWs rest2 with
        | ':' :: rest3 =>
          match parseVal fuel rest3 with
          | none => none
          | some (v, rest4) =>
            match skipWs rest4 with
            | ',' :: rest5 => (parseMembers fuel rest5).map (fun p => ((k, v) :: p.1, p.2))
            | c :: rest5 => if c = rbrace then some ([(k, v)], rest5) else none
            | [] => none
        | _ => none
    | _ => none

end

/-- `JSON.parse` as used by the pipelines: `none` models a thrown
`SyntaxError`.  Trailing insignificant whitespace is removed up front — a
JSON document is one value surrounded by whitespace, so this is equivalent to
accepting a whitespace remainder — and the fuel is then a function of the
trimmed text, making the parser insensitive to trailing whitespace by
construction. -/
def jsonParse (cs : List Char) : Option Json :=
  let cs2 := dropTrailingBy isJsonWs cs
  match parseVal (2 * cs2.length + 4) cs2 with
  | some (v, []) => some v
  | _ => none

/-- The `/\{[\s\S]*\}/` fallback match: the span from the first opening brace
to the last closing brace after it, if any (leftmost match, greedy star). -/
def braceSpan (cs : List Char) : Option (List Char) :=
  match (cs.dropWhile (fun c => !(c = lbrace))).reverse.dropWhile (fun c => !(c = rbrace)) with
  | [] => none
  | rev => some rev.reverse

/-- The shared parse strategy of both pipelines: `JSON.parse` the cleaned
text; on failure, locate the first-to-last brace span and try again; `none`
models `parsedOutput = null`. -/
def pipelineParse (cs : List Char) : Option Json :=
  match jsonParse cs with
  | some v => some v
  | none =>
    match braceSpan cs with
    | some sub => jsonParse sub
    | none => none

/- ### `JSON.stringify` (used when a model reply is not a plain string) -/

/-- Escape one character for a JSON string literal. -/
def escOne (c : Char) : List Char :=
  if c = '"' then ['\\', '"']
  else if c = '\\' then ['\\', '\\']
  else if c = '\n' then ['\\', 'n']
  else if c = '\r' then ['\\', 'r']
  else if c = '\t' then ['\\', 't']
  else [c]

/-- Escape a string body for `JSON.stringify`. -/
def escapeChars (s : List Char) : List Char :=
  s.foldr (fun c acc => escOne c ++ acc) []

mutual

/-- `JSON.stringify` on the `Json` model (numbers rendered via `qToChars`). -/
def jsonStringify : Json → List Char
  | .null => 'n' :: 'u' :: 'l' :: 'l' :: []
  | .bool b => if b then 't' :: 'r' :: 'u' :: 'e' :: [] else 'f' :: 'a' :: 'l' :: 's' :: 'e' :: []
  | .num q => qToChars q
  | .str s => '"' :: (escapeChars s ++ ['"'])
  | .arr l => '[' :: (jsonStringifyElems l ++ [']'])
  | .obj l => lbrace :: (jsonStringifyFields l ++ [rbrace])

/-- Comma-joined stringified array elements. -/
def jsonStringifyElems : List Json → List Char
  | [] => []
  | [j] => jsonStringify j
  | j :: js => jsonStringify j ++ ',' :: jsonStringifyElems js

/-- Comma-joined stringified object members. -/
def jsonStringifyFields : List (List Char × Json) → List Char
  | [] => []
  | [(k, v)] => '"' :: (escapeChars k ++ '"' :: ':' :: jsonStringify v)
  | (k, v) :: fs =>
    '"' :: (escapeChars k ++ '"' :: ':' :: jsonStringify v) ++ ',' :: jsonStringifyFields fs

end

/- ### The maintenance-plan projector (`generateUpcomingServices`) -/

/-- Result of `generateUpcomingServices` after the model call: the upstream
failure passthrough (`if (!response.success) return response`), the hard
parse failure `{success: false, error: 'Failed to parse upcoming services
JSON', content: response.content}`, or the success `{success: true, content:
parsed}`. -/
inductive PlanOutcome where
  | upstream (e : List Char)
  | parseFail (content : Json)
  | ok (parsed : Json)

/-- `Array.isArray(parsed.plan)` for a parsed value. -/
def hasPlanArray (v : Json) : Bool :=
  match getField (some v) ("plan".data) with
  | some (.arr _) => true
  | _ => false

/-- The parse-and-validate tail of `generateUpcomingServices`, applied to the
successful model reply (`response.content`, a string or `null` in practice):

    const raw = typeof response.content === 'string' ? response.content : JSON.stringify(response.content)
    const cleaned = raw.trim().replace(...fences...)
    let parsed = null
    try { parsed = JSON.parse(cleaned) } catch { ...brace-span fallback... }
    if (!parsed || !Array.isArray(parsed.plan)) {
      return { success: false, error: 'Failed to parse upcoming services JSON', content: response.content }
    }
    return { success: true, content: parsed }
-/
def planRaw (content : Json) : List Char :=
  match content with
  | .str s => s
  | j => jsonStringify j

/-- The value bound to `parsed` in `generateUpcomingServices`: fence-strip
then parse with the brace-span fallback. -/
def planParsed (content : Json) : Option Json :=
  pipelineParse (cleanFences (planRaw content))

/-- The acceptance test `!(!parsed || !Array.isArray(parsed.plan))`. -/
def planOk : Option Json → Bool
  | none => false
  | some v => jsTruthy v && hasPlanArray v

def generateUpcomingServices (resp : Except (List Char) Json) : PlanOutcome :=
  match resp with
  | .error e => .upstream e
  | .ok content =>
    match planParsed content with
    | none => .parseFail content
    | some v => if jsTruthy v && hasPlanArray v then .ok v else .parseFail content

/- ### The signal normalizer (`loadVehicleDetails`) -/

/-- One raw telemetry sample: an ISO timestamp (modelled as epoch
milliseconds, the value `new Date(ts)` yields in the sort comparator) and the
`powertrainTransmissionTravelledDistance` kilometre reading. -/
structure Signal where
  timestamp : Int
  kilometers : ℚ
  deriving DecidableEq

/-- One normalized odometer history entry. -/
structure Reading where
  timestamp : Int
  kilometers : ℚ
  miles : ℚ
  deriving DecidableEq

/-- The fixed kilometre→mile conversion constant `0.621371`. -/
def mileFactor : ℚ := mkRat 621371 1000000

/-- `signals.map(signal => ({timestamp, kilometers, miles: km * 0.621371}))`. -/
def toReading (s : Signal) : Reading :=
  ⟨s.timestamp, s.kilometers, s.kilometers * mileFactor⟩

/-- Comparator order of `odometerHistory.sort((a, b) => new Date(a.timestamp) - new Date(b.timestamp))`. -/
def tsLe (a b : Reading) : Prop := a.timestamp ≤ b.timestamp

instance : DecidableRel tsLe := fun a b => inferInstanceAs (Decidable (a.timestamp ≤ b.timestamp))

instance : IsTotal Reading tsLe := ⟨fun a b => le_total a.timestamp b.timestamp⟩

instance : IsTrans Reading tsLe := ⟨fun _ _ _ h h2 => le_trans h h2⟩

/-- The normalized odometer history: map to miles, then sort ascending by
timestamp.  `Array.prototype.sort` is stable, and a stable sort by a `≤`
comparator is insertion sort. -/
def odometerHistory (signals : List Signal) : List Reading :=
  List.insertionSort tsLe (signals.map toReading)

/-- The odometer summary stored on the vehicle object. -/
structure OdoView where
  odometerReading : ℚ
  odometerTimestamp : Int
  odometerUnit : List Char
  odometerHistoryEntries : List Reading
  deriving DecidableEq

/-- The odometer part of `loadVehicleDetails`: with no signals, none of the
odometer fields is set (`none`); otherwise the last element of the sorted
history becomes the current reading and timestamp, the unit is `miles`, and
the full history is attached. -/
def odometerSummary (signals : List Signal) : Option OdoView :=
  if signals.isEmpty then none
  else
    (odometerHistory signals).getLast?.map
      (fun last => ⟨last.miles, last.timestamp, "miles".data, odometerHistory signals⟩)

/- ### The maintenance record store -/

/-- A persisted row of `vehicle_maintenance.maintenance_records`, per the
migration: `id SERIAL`, `token_id INTEGER NOT NULL`, `service_date DATE`,
`total_cost NUMERIC(12,2)` (modelled exactly as integer cents),
`description TEXT`, `summary TEXT`, `mileage INTEGER`,
`output_text TEXT NOT NULL`, `created_at TIMESTAMPTZ DEFAULT NOW()`. -/
structure MaintenanceRow where
  id : Nat
  tokenId : Int
  serviceDate : Option Int
  totalCostCents : Option Int
  description : Option (List Char)
  summary : Option (List Char)
  mileage : Option Int
  outputText : List Char
  createdAt : Int
  deriving DecidableEq

/-- The store: rows plus the next serial id. -/
structure MaintenanceDB where
  rows : List MaintenanceRow
  nextId : Nat
  deriving DecidableEq

/-- `NUMERIC(12,2)` quantization: round to cents, halves away from zero. -/
def pgRound2 (q : ℚ) : Int :=
  if 0 ≤ q then ⌊q * 100 + 1 / 2⌋ else -⌊-q * 100 + 1 / 2⌋

/-- The extract-maintenance `INSERT INTO vehicle_maintenance.maintenance_records
(token_id, service_date, total_cost, description, output_text) VALUES (...)`:
appends one row with a store-assigned id and timestamp; `summary` and
`mileage` are not in the column list and default to NULL.  A `none` token id
violates the `token_id INTEGER NOT NULL` constraint, so the statement fails
(`none`). -/
def insertRecord (db : MaintenanceDB) (now : Int) (tok : Option Int)
    (sd : Option Int) (cost : Option ℚ) (desc : Option (List Char))
    (out : List Char) : Option MaintenanceDB :=
  match tok with
  | none => none
  | some t =>
    some ⟨db.rows ++ [⟨db.nextId, t, sd, cost.map pgRound2, desc, none, none, out, now⟩],
      db.nextId + 1⟩

/-- Sort key for `service_date` under `ORDER BY service_date NULLS LAST`:
NULL sorts above every date. -/
def sdKey (sd : Option Int) : WithTop Int :=
  match sd with
  | none => ⊤
  | some d => (d : WithTop Int)

/-- The row order of `ORDER BY service_date NULLS LAST, created_at DESC`. -/
def pgRel (a b : MaintenanceRow) : Prop :=
  sdKey a.serviceDate < sdKey b.serviceDate ∨
    (sdKey a.serviceDate = sdKey b.serviceDate ∧ b.createdAt ≤ a.createdAt)

instance : DecidableRel pgRel := fun a b =>
  inferInstanceAs (Decidable (sdKey a.serviceDate < sdKey b.serviceDate ∨
    (sdKey a.serviceDate = sdKey b.serviceDate ∧ b.createdAt ≤ a.createdAt)))

instance : IsTotal MaintenanceRow pgRel :=
  ⟨fun a b => by
    rcases lt_trichotomy (sdKey a.serviceDate) (sdKey b.serviceDate) with h | h | h
    · exact Or.inl (Or.inl h)
    · rcases le_total b.createdAt a.createdAt with h2 | h2
      · exact Or.inl (Or.inr ⟨h, h2⟩)
      · exact Or.inr (Or.inr ⟨h.symm, h2⟩)
    · exact Or.inr (Or.inl h)⟩

instance : IsTrans MaintenanceRow pgRel :=
  ⟨fun a b c hab hbc => by
    rcases hab with h1 | ⟨e1, c1⟩
    · rcases hbc with h2 | ⟨e2, c2⟩
      · exact Or.inl (lt_trans h1 h2)
      · exact Or.inl (e2 ▸ h1)
    · rcases hbc with h2 | ⟨e2, c2⟩
      · exact Or.inl (e1 ▸ h2)
      · exact Or.inr ⟨e1.trans e2, le_trans c2 c1⟩⟩

/-- Fixed two-fraction-digit text rendering of a cents value — the wire form
in which PostgreSQL returns a `NUMERIC(12,2)` (node-pg hands `NUMERIC` values
to JavaScript as strings). -/
def decimalOfCents (n : Int) : List Char :=
  (if n < 0 then ['-'] else []) ++ natToChars (n.natAbs / 100) ++
    '.' :: digitChar (n.natAbs / 10 % 10) :: [digitChar (n.natAbs % 10)]

/-- JavaScript `Number(s)` on decimal text (optional sign, digits, optional
fraction), `none` modelling `NaN`; this is the fragment of the `Number`
grammar that covers every string the store can produce. -/
def jsNumberCore (s1 : List Char) (neg : Bool) : Option ℚ :=
  if (s1.dropWhile Char.isDigit).isEmpty then
    if (s1.takeWhile Char.isDigit).isEmpty then none
    else
      some (mkRat ((if neg then -1 else 1) *
        (parseDigitsNat (s1.takeWhile Char.isDigit) : Int)) 1)
  else if (s1.dropWhile Char.isDigit).headD ' ' = '.' then
    if (s1.dropWhile Char.isDigit).tail.all Char.isDigit &&
        !((s1.takeWhile Char.isDigit).isEmpty && (s1.dropWhile Char.isDigit).tail.isEmpty) then
      some (mkRat ((if neg then -1 else 1) *
        ((parseDigitsNat (s1.takeWhile Char.isDigit) : Int) *
            10 ^ (s1.dropWhile Char.isDigit).tail.length +
          (parseDigitsNat (s1.dropWhile Char.isDigit).tail : Int)))
        (10 ^ (s1.dropWhile Char.isDigit).tail.length))
    else none
  else none

def jsNumberParse (s : List Char) : Option ℚ :=
  if s.headD ' ' = '-' then jsNumberCore s.tail true else jsNumberCore s false

/-- One record as returned by `GET /api/maintenance/:tokenId`: exactly the
columns in the SELECT list (`summary` and `mileage` are not selected), with
`totalCost` already passed through the `Number(...)` coercion
(`r.totalCost != null ? Number(r.totalCost) : null`).  A `NaN` from `Number`
would be an impossible non-`null` non-numeric value; it is conflated with
`none` here and proved never to occur. -/
structure MaintenanceOut where
  id : Nat
  tokenId : Int
  serviceDate : Option Int
  totalCost : Option ℚ
  description : Option (List Char)
  outputText : List Char
  createdAt : Int
  deriving DecidableEq

/-- Projection of a stored row to the response shape, including the
string→number coercion of the `NUMERIC` wire format. -/
def rowOut (r : MaintenanceRow) : MaintenanceOut :=
  ⟨r.id, r.tokenId, r.serviceDate,
    r.totalCostCents.bind (fun n => jsNumberParse (decimalOfCents n)),
    r.description, r.outputText, r.createdAt⟩

/-- The query of `GET /api/maintenance/:tokenId`:

    SELECT ... WHERE token_id = $1 ORDER BY service_date NULLS LAST, created_at DESC

followed by the per-row `Number` coercion of `totalCost`. -/
def queryByToken (db : MaintenanceDB) (t : Int) : List MaintenanceOut :=
  (List.insertionSort pgRel (db.rows.filter (fun r => decide (r.tokenId = t)))).map rowOut

/- ### The document-extraction route handler (`POST /api/ai/extract-maintenance`) -/

/-- The shape of a successful model result's `content`, mirroring the three
envelope shapes the handler distinguishes (responses-API object with
`output_text`, chat-completion reply, plain string) plus the
`JSON.stringify` fallback for anything else.  A chat reply with empty
content falls through to the stringify branch in the source; the `chat`
constructor covers the nonempty case and `other` the fallback. -/
inductive ModelContent where
  | envelope (outputTextField : Option (List Char))
  | chat (msg : List Char)
  | plain (s : List Char)
  | other (j : Json)

/-- Resolution of the three response shapes to one raw text string
(`outputText`), lines 409–419 of the server:

    if (ai && typeof ai === 'object' && 'output_text' in ai) outputText = ai.output_text || ''
    else if (ai?.choices?.[0]?.message?.content) outputText = ai.choices[0].message.content
    else if (typeof ai === 'string') outputText = ai
    else outputText = JSON.stringify(ai)
-/
def extractOutputText : ModelContent → List Char
  | .envelope f => f.getD []
  | .chat m => m
  | .plain s => s
  | .other j => jsonStringify j

/-- The fence-strip-and-parse step of the extraction pipeline (`cleaned` and
`parsedOutput` in the route handler) — textually the same strategy as the
plan projector's. -/
def extractParsedOutput (outputText : List Char) : Option Json :=
  pipelineParse (cleanFences outputText)

/-- `a || b` on optional strings (the empty string is falsy). -/
def jsOrStr (a b : Option (List Char)) : Option (List Char) :=
  match a with
  | some s => if s.isEmpty then b else some s
  | none => b

/-- `parseInt(req.body.tokenId || req.query.tokenId || req.headers['x-token-id'] || '0', 10) || null`:
the first truthy source string (defaulting to `'0'`) is parsed; `NaN` and `0`
are both coerced to `null` by the trailing `|| null`. -/
def computeTokenId (body query hdr : Option (List Char)) : Option Int :=
  let s := (jsOrStr (jsOrStr (jsOrStr body query) hdr) (some ['0'])).getD ['0']
  match parseIntJs s with
  | none => none
  | some k => if k = 0 then none else some k

/-- `parseMoney(parsedOutput?.totalCost || parsedOutput?.total_cost || parsedOutput?.amount)`. -/
def totalCostOf (parsedOutput : Option Json) : Option ℚ :=
  parseMoney (jsOr (jsOr (getField parsedOutput ("totalCost".data))
    (getField parsedOutput ("total_cost".data)))
    (getField parsedOutput ("amount".data)))

/-- `parsedOutput?.serviceType || parsedOutput?.description || parsedOutput?.service || null`,
as the value bound for the TEXT `description` column (node-pg stringifies a
non-string parameter). -/
def descriptionOf (parsedOutput : Option Json) : Option (List Char) :=
  let v := jsOr (jsOr (getField parsedOutput ("serviceType".data))
    (getField parsedOutput ("description".data)))
    (getField parsedOutput ("service".data))
  match v with
  | some j => if jsTruthy j then some (jsToString j) else none
  | none => none

/-- `parsedOutput?.date ? new Date(parsedOutput.date) : null`; the `Date`
constructor is a platform builtin, abstracted as the `dateParse` argument. -/
def serviceDateOf (dateParse : Json → Int) (parsedOutput : Option Json) : Option Int :=
  match getField parsedOutput ("date".data) with
  | some j => if jsTruthy j then some (dateParse j) else none
  | none => none

/-- The response of the extract-maintenance route (success path:
`res.json({...result, parsed: parsedOutput})`; upstream failure:
`res.status(500).json(result)`). -/
structure ExtractResponse where
  success : Bool
  content : Option ModelContent
  parsed : Option Json
  error : Option (List Char)

/-- The extract-maintenance route handler after file upload: resolve the raw
output text, strip fences and parse, derive the record fields, insert
(best-effort: a failed insert — modelled by a `none` from `insertRecord` or
by the `dbFail` oracle standing for an environmental database error — is
caught, logged and swallowed), then answer with the AI result plus the
parsed structure. -/
def extractHandler (dateParse : Json → Int) (now : Int)
    (ai : Except (List Char) ModelContent) (body query hdr : Option (List Char))
    (db : MaintenanceDB) (dbFail : Bool) : ExtractResponse × MaintenanceDB :=
  match ai with
  | .error e => (⟨false, none, none, some e⟩, db)
  | .ok content =>
    let outputText := extractOutputText content
    let parsedOutput := extractParsedOutput outputText
    let tokenId := computeTokenId body query hdr
    let db2 :=
      if dbFail then none
      else
        insertRecord db now tokenId (serviceDateOf dateParse parsedOutput)
          (totalCostOf parsedOutput) (descriptionOf parsedOutput) outputText
    (⟨true, some content, parsedOutput, none⟩, db2.getD db)

/- ### Digit-string lemmas -/

theorem parseDigitVal_digitChar : ∀ d : Nat, d < 10 → parseDigitVal (digitChar d) = d := by
  decide

theorem isDigit_digitChar : ∀ d : Nat, d < 10 → (digitChar d).isDigit = true := by
  decide

theorem natToCharsAux_digits :
    ∀ fuel n : Nat, ∀ c ∈ natToCharsAux fuel n, c.isDigit = true := by
  intro fuel
  induction fuel with
  | zero => intro n c hc; simp [natToCharsAux] at hc
  | succ fuel ih =>
    intro n c hc
    match n with
    | 0 => simp [natToCharsAux] at hc
    | m + 1 =>
      simp only [natToCharsAux, List.mem_cons] at hc
      rcases hc with rfl | hc
      · exact isDigit_digitChar _ (Nat.mod_lt _ (by omega))
      · exact ih _ c hc

theorem natToChars_digits (n : Nat) : ∀ c ∈ natToChars n, c.isDigit = true := by
  intro c hc
  unfold natToChars at hc
  split at hc
  · simp at hc
    subst hc
    decide
  · rw [List.mem_reverse] at hc
    exact natToCharsAux_digits _ _ c hc

theorem natToChars_ne_nil (n : Nat) : natToChars n ≠ [] := by
  unfold natToChars
  split
  · simp
  · have : natToCharsAux n n ≠ [] := by
      match n with
      | 0 => omega
      | m + 1 => simp [natToCharsAux]
    simpa using this

theorem foldr_natToCharsAux :
    ∀ fuel n : Nat, n ≤ fuel →
      (natToCharsAux fuel n).foldr (fun c a => a * 10 + parseDigitVal c) 0 = n := by
  intro fuel
  induction fuel with
  | zero => intro n h; interval_cases n; simp [natToCharsAux]
  | succ fuel ih =>
    intro n h
    match n with
    | 0 => simp [natToCharsAux]
    | m + 1 =>
      have hdiv : (m + 1) / 10 ≤ fuel := by
        have := Nat.div_lt_self (by omega : 0 < m + 1) (by omega : 1 < 10)
        omega
      simp only [natToCharsAux, List.foldr_cons]
      rw [ih _ hdiv, parseDigitVal_digitChar _ (Nat.mod_lt _ (by omega))]
      omega

theorem parseDigitsNat_natToChars (n : Nat) : parseDigitsNat (natToChars n) = n := by
  unfold natToChars
  split
  · subst n; decide
  · unfold parseDigitsNat
    rw [List.foldl_reverse]
    exact foldr_natToCharsAux n n le_rfl

/- ### takeWhile / dropWhile on a digit block -/

theorem takeWhile_digits_append (A B : List Char) (x : Char)
    (hA : ∀ c ∈ A, Char.isDigit c = true) (hx : Char.isDigit x = false) :
    (A ++ x :: B).takeWhile Char.isDigit = A := by
  induction A with
  | nil => simp [List.takeWhile_cons, hx]
  | cons a A ih =>
    have ha := hA a (by simp)
    simp only [List.cons_append, List.takeWhile_cons, ha, if_true]
    rw [ih (fun c hc => hA c (by simp [hc]))]

theorem dropWhile_digits_append (A B : List Char) (x : Char)
    (hA : ∀ c ∈ A, Char.isDigit c = true) (hx : Char.isDigit x = false) :
    (A ++ x :: B).dropWhile Char.isDigit = x :: B := by
  induction A with
  | nil => simp [List.dropWhile_cons, hx]
  | cons a A ih =>
    have ha := hA a (by simp)
    simp only [List.cons_append, List.dropWhile_cons, ha, if_true]
    exact ih (fun c hc => hA c (by simp [hc]))

/- ### Stability of the timestamp sort -/

theorem filter_orderedInsert_ts (x : Reading) (l : List Reading) (k : Int) :
    (List.orderedInsert tsLe x l).filter (fun r => decide (r.timestamp = k)) =
      if x.timestamp = k then x :: l.filter (fun r => decide (r.timestamp = k))
      else l.filter (fun r => decide (r.timestamp = k)) := by
  induction l with
  | nil =>
    by_cases hx : x.timestamp = k <;>
      simp [List.orderedInsert, List.filter, hx]
  | cons y ys ih =>
    simp only [List.orderedInsert]
    by_cases hle : tsLe x y
    · rw [if_pos hle]
      by_cases hx : x.timestamp = k <;> simp [List.filter_cons, hx]
    · rw [if_neg hle]
      have hylt : y.timestamp < x.timestamp := by
        simp only [tsLe, not_le] at hle
        exact hle
      by_cases hx : x.timestamp = k
      · have hy : ¬(y.timestamp = k) := by omega
        simp only [List.filter_cons, hy, decide_eq_true_eq, if_pos hx, ih,
          decide_eq_false hy, Bool.false_eq_true, if_false]
      · simp only [List.filter_cons, ih, if_neg hx]

theorem filter_insertionSort_ts (l : List Reading) (k : Int) :
    (List.insertionSort tsLe l).filter (fun r => decide (r.timestamp = k)) =
      l.filter (fun r => decide (r.timestamp = k)) := by
  induction l with
  | nil => rfl
  | cons x xs ih =>
    simp only [List.insertionSort, filter_orderedInsert_ts, ih, List.filter_cons]
    by_cases hx : x.timestamp = k <;> simp [hx]

/- ### C1 and C8: the signal normalizer -/

/-- C1: for every sequence of telemetry samples, the normalized odometer
history is sorted non-decreasing by timestamp; the sort is stable with ties
broken by original order (for each timestamp, the subsequence of entries with
that timestamp is exactly the subsequence of the mapped input, in input
order); each entry's `miles` equals its `kilometers` times the fixed constant
`0.621371`; and the summary uses the last element of the sorted sequence as
the current reading and timestamp. -/
theorem claim_C1_signal_normalizer (signals : List Signal) :
    List.Sorted tsLe (odometerHistory signals) ∧
    (∀ r ∈ odometerHistory signals, r.miles = r.kilometers * mileFactor) ∧
    (∀ k : Int, (odometerHistory signals).filter (fun r => decide (r.timestamp = k)) =
      (signals.map toReading).filter (fun r => decide (r.timestamp = k))) ∧
    (∀ v, odometerSummary signals = some v →
      ∃ last, (odometerHistory signals).getLast? = some last ∧
        v.odometerReading = last.miles ∧ v.odometerTimestamp = last.timestamp ∧
        v.odometerHistoryEntries = odometerHistory signals) := by
  refine ⟨List.sorted_insertionSort tsLe _, ?_, ?_, ?_⟩
  · intro r hr
    rw [odometerHistory, List.mem_insertionSort] at hr
    obtain ⟨s, _, rfl⟩ := List.mem_map.mp hr
    rfl
  · intro k
    exact filter_insertionSort_ts _ k
  · intro v hv
    unfold odometerSummary at hv
    split at hv
    · simp at hv
    · obtain ⟨last, hlast⟩ : ∃ last, (odometerHistory signals).getLast? = some last := by
        cases hcase : (odometerHistory signals).getLast? with
        | none => rw [hcase] at hv; simp at hv
        | some l => exact ⟨l, rfl⟩
      rw [hlast] at hv
      simp only [Option.map_some', Option.some_inj] at hv
      subst hv
      exact ⟨last, hlast, rfl, rfl, rfl⟩

/-- Out-of-order input from the end-to-end scenario of the spec: kilometre
readings 10000, 12000, 11000 at timestamps 2, 1, 3. -/
def exSignals : List Signal := [⟨2, 12000⟩, ⟨1, 10000⟩, ⟨3, 11000⟩]

theorem claim_C1_signal_normalizer_witness :
    (toReading ⟨2, 12000⟩).miles = (toReading ⟨2, 12000⟩).kilometers * mileFactor ∧
    (odometerHistory exSignals).filter (fun r => decide (r.timestamp = 2)) =
      (exSignals.map toReading).filter (fun r => decide (r.timestamp = 2)) ∧
    (∃ last, (odometerHistory exSignals).getLast? = some last ∧
      (⟨last.miles, last.timestamp, "miles".data, odometerHistory exSignals⟩ :
        OdoView).odometerReading = last.miles) := by
  have h := claim_C1_signal_normalizer exSignals
  have hmem : toReading ⟨2, 12000⟩ ∈ odometerHistory exSignals := by
    rw [odometerHistory, List.mem_insertionSort]
    simp [exSignals]
  have hne : odometerHistory exSignals ≠ [] := by
    have hlen : (odometerHistory exSignals).length = 3 := by
      rw [odometerHistory, List.length_insertionSort]
      rfl
    intro hcon
    rw [hcon] at hlen
    simp at hlen
  have hsum : ∃ v, odometerSummary exSignals = some v := by
    unfold odometerSummary
    rw [if_neg (by simp [exSignals])]
    cases hcase : (odometerHistory exSignals).getLast? with
    | none => exact absurd (List.getLast?_eq_none_iff.mp hcase) hne
    | some last => exact ⟨_, rfl⟩
  obtain ⟨v, hv⟩ := hsum
  obtain ⟨last, hlast, h1, h2, h3⟩ := h.2.2.2 v hv
  exact ⟨h.2.1 _ hmem, h.2.2.1 2, last, hlast, rfl⟩

/-- C8: for an empty telemetry sample sequence no odometer summary fields are
populated (the summary is `none`), while any nonempty sequence — including
one whose only reading is zero kilometres — produces a populated summary, so
the no-data state is distinguishable from a genuine zero-mile reading and a
missing reading is never defaulted to 0. -/
theorem claim_C8_empty_telemetry :
    (∀ signals : List Signal, signals = [] → odometerSummary signals = none) ∧
    (∀ signals : List Signal, signals ≠ [] → ∃ v, odometerSummary signals = some v) := by
  constructor
  · intro signals h
    subst h
    rfl
  · intro signals h
    unfold odometerSummary
    rw [if_neg (by simpa using h)]
    have hne : odometerHistory signals ≠ [] := by
      intro hcon
      have : (odometerHistory signals).length = signals.length := by
        rw [odometerHistory, List.length_insertionSort, List.length_map]
      rw [hcon] at this
      exact h (List.length_eq_zero.mp this.symm)
    cases hcase : (odometerHistory signals).getLast? with
    | none => exact absurd (List.getLast?_eq_none_iff.mp hcase) hne
    | some last => exact ⟨_, rfl⟩

theorem claim_C8_empty_telemetry_witness :
    odometerSummary [] = none ∧ ∃ v, odometerSummary [⟨0, 0⟩] = some v :=
  ⟨claim_C8_empty_telemetry.1 [] rfl,
    claim_C8_empty_telemetry.2 [⟨0, 0⟩] (by simp)⟩

/- ### C4: the monetary-field parser -/

/-- C4: `parseMoney` accepts a number or a string; a string is stripped to the
characters `0-9 . -` and parsed, an unparseable stripped form yields `null`
(never zero, never an exception — the function is total), a number passes
through unchanged; `"$1,234.50"` parses to `1234.50` and `"n/a"` to `null`. -/
theorem claim_C4_parse_money :
    parseMoney (some (.str ("$1,234.50".data))) = some (1234.5 : ℚ) ∧
    parseMoney (some (.str ("n/a".data))) = none ∧
    (∀ q : ℚ, parseMoney (some (.num q)) = some q) ∧
    (∀ s : List Char, parseMoney (some (.str s)) = parseFloatQ (stripMoney s)) ∧
    (∀ s : List Char, parseFloatQ (stripMoney s) = none →
      parseMoney (some (.str s)) = none) := by
  refine ⟨?_, rfl, fun q => rfl, fun s => rfl, fun s h => ?_⟩
  · have h1 : parseMoney (some (.str ("$1,234.50".data))) = some (mkRat 123450 100) := rfl
    rw [h1, Option.some_inj, Rat.mkRat_eq_divInt, Rat.divInt_eq_div]
    norm_num
  · rw [show parseMoney (some (.str s)) = parseFloatQ (stripMoney s) from rfl, h]

theorem claim_C4_parse_money_witness :
    parseMoney (some (.num (1234.5 : ℚ))) = some (1234.5 : ℚ) ∧
    parseMoney (some (.str ("n/a".data))) = none :=
  ⟨claim_C4_parse_money.2.2.1 _, claim_C4_parse_money.2.2.2.2 _ rfl⟩

/- ### C2: plan-projection validation -/

theorem getField_obj_of_some {v : Json} {k : List Char} {x : Json}
    (h : getField (some v) k = some x) : jsTruthy v = true := by
  match v with
  | .obj _ => rfl
  | .null => simp [getField] at h
  | .bool _ => simp [getField] at h
  | .num _ => simp [getField] at h
  | .str _ => simp [getField] at h
  | .arr _ => simp [getField] at h

/-- C2: in `generateUpcomingServices`, a model reply whose fence-stripped,
JSON-extracted parse does not yield an object with a `plan` field that is an
array is a hard failure carrying the raw model content
(`{success: false, error: ..., content: response.content}`), while a parse
yielding a `plan` that is an array — in particular the empty array — is a
success. -/
theorem claim_C2_plan_projection (content : Json) :
    (planOk (planParsed content) = false →
      generateUpcomingServices (.ok content) = .parseFail content) ∧
    (∀ v, planParsed content = some v → planOk (some v) = true →
      generateUpcomingServices (.ok content) = .ok v) ∧
    (∀ v, planParsed content = some v →
      getField (some v) ("plan".data) = some (.arr []) →
      generateUpcomingServices (.ok content) = .ok v) := by
  refine ⟨?_, ?_, ?_⟩
  · intro h
    simp only [generateUpcomingServices]
    cases hp : planParsed content with
    | none => rfl
    | some v =>
      rw [hp] at h
      simp only [planOk] at h
      simp [h]
  · intro v hp hok
    simp only [generateUpcomingServices]
    rw [hp]
    simp only [planOk] at hok
    simp [hok]
  · intro v hp hfield
    have htr : jsTruthy v = true := getField_obj_of_some hfield
    have harr : hasPlanArray v = true := by
      unfold hasPlanArray
      rw [hfield]
    simp only [generateUpcomingServices]
    rw [hp]
    simp [htr, harr]

/-- The text of the reply `{"plan": []}`. -/
def planEmptyTxt : List Char := [lbrace, '"', 'p', 'l', 'a', 'n', '"', ':', '[', ']', rbrace]

/-- A reply with no JSON in it. -/
def noJsonTxt : List Char := ['h', 'i']

theorem claim_C2_plan_projection_witness :
    generateUpcomingServices (.ok (.str noJsonTxt)) = .parseFail (.str noJsonTxt) ∧
    generateUpcomingServices (.ok (.str planEmptyTxt)) =
      .ok (.obj [("plan".data, .arr [])]) := by
  constructor
  · exact (claim_C2_plan_projection (.str noJsonTxt)).1 rfl
  · exact (claim_C2_plan_projection (.str planEmptyTxt)).2.2 _ rfl rfl


/- ### C7: fence-stripping round-trip -/

/-- A reply wrapped in a ```json fence. -/
def wrapJsonFence (t : List Char) : List Char :=
  [tick, tick, tick, 'j', 's', 'o', 'n', '\n'] ++ t ++ ['\n', tick, tick, tick]

/-- A reply wrapped in a bare ``` fence. -/
def wrapPlainFence (t : List Char) : List Char :=
  [tick, tick, tick, '\n'] ++ t ++ ['\n', tick, tick, tick]

theorem dropWhile_cons_of_neg {p : Char → Bool} {c : Char} {l : List Char}
    (h : p c = false) : (c :: l).dropWhile p = c :: l := by
  simp [List.dropWhile_cons, h]

theorem dropWhile_cons_of_pos {p : Char → Bool} {c : Char} {l : List Char}
    (h : p c = true) : (c :: l).dropWhile p = l.dropWhile p := by
  simp [List.dropWhile_cons, h]

theorem dropTrailingBy_concat_of_neg {p : Char → Bool} {l : List Char} {d : Char}
    (h : p d = false) : dropTrailingBy p (l ++ [d]) = l ++ [d] := by
  simp [dropTrailingBy, List.dropWhile_cons, h]

theorem dropTrailingBy_concat_of_pos {p : Char → Bool} {l : List Char} {d : Char}
    (h : p d = true) : dropTrailingBy p (l ++ [d]) = dropTrailingBy p l := by
  simp [dropTrailingBy, List.dropWhile_cons, h]

theorem trimChars_cons_concat {c d : Char} {l : List Char}
    (hc : isWsChar c = false) (hd : isWsChar d = false) :
    trimChars (c :: l ++ [d]) = c :: l ++ [d] := by
  unfold trimChars
  rw [List.cons_append, dropWhile_cons_of_neg hc, ← List.cons_append]
  rw [dropTrailingBy_concat_of_neg hd]

theorem take3_cons_ne_ticks {c : Char} (hc : ¬ c = tick) (l : List Char) :
    ¬ ((c :: l).take 3 = [tick, tick, tick]) := by
  rw [List.take_succ_cons]
  simp [hc]

theorem stripFencePrefix_no_op {c : Char} (hc : ¬ c = tick) (l : List Char) :
    stripFencePrefix (c :: l) = c :: l := by
  unfold stripFencePrefix
  rw [if_neg (take3_cons_ne_ticks hc l)]

theorem stripJsonFencePrefix_no_op {c : Char} (hc : ¬ c = tick) (l : List Char) :
    stripJsonFencePrefix (c :: l) = c :: l := by
  unfold stripJsonFencePrefix
  rw [if_neg]
  intro hcon
  exact take3_cons_ne_ticks hc l hcon.1

theorem stripJsonFencePrefix_ticks_not_json {d : Char} (hd : ¬ d.toLower = 'j')
    (l : List Char) :
    stripJsonFencePrefix (tick :: tick :: tick :: d :: l) = tick :: tick :: tick :: d :: l := by
  unfold stripJsonFencePrefix
  rw [if_neg]
  intro hcon
  have h2 := hcon.2
  simp only [List.drop_succ_cons, List.drop_zero] at h2
  rw [List.take_succ_cons] at h2
  simp only [List.map_cons, List.cons.injEq] at h2
  exact hd h2.1

theorem stripJsonFencePrefix_wrap (X : List Char) :
    stripJsonFencePrefix (tick :: tick :: tick :: 'j' :: 's' :: 'o' :: 'n' :: X) =
      X.dropWhile isWsChar := by
  unfold stripJsonFencePrefix
  rw [if_pos (by constructor <;> rfl)]
  rfl

theorem stripFencePrefix_wrap (X : List Char) :
    stripFencePrefix (tick :: tick :: tick :: X) = X.dropWhile isWsChar := by
  unfold stripFencePrefix
  rw [if_pos (by rfl)]
  rfl

theorem stripFenceSuffix_wrap (X : List Char) :
    stripFenceSuffix (X ++ ['\n', tick, tick, tick]) = X ++ ['\n'] := by
  have hrev : (X ++ ['\n', tick, tick, tick]).reverse.dropWhile isWsChar =
      tick :: tick :: tick :: '\n' :: X.reverse := by
    rw [show (X ++ ['\n', tick, tick, tick]).reverse =
      tick :: tick :: tick :: '\n' :: X.reverse from by simp]
    exact dropWhile_cons_of_neg (by decide)
  unfold stripFenceSuffix
  rw [hrev, if_pos (by rfl)]
  simp

theorem stripFenceSuffix_no_op {d : Char} (hd1 : isWsChar d = false) (hd2 : ¬ d = tick)
    (l : List Char) : stripFenceSuffix (l ++ [d]) = l ++ [d] := by
  have hrev : (l ++ [d]).reverse.dropWhile isWsChar = d :: l.reverse := by
    rw [show (l ++ [d]).reverse = d :: l.reverse from by simp]
    exact dropWhile_cons_of_neg hd1
  unfold stripFenceSuffix
  rw [hrev, if_neg (take3_cons_ne_ticks hd2 _)]

theorem cleanFences_wrapJson (mid : List Char) :
    cleanFences (wrapJsonFence (lbrace :: mid ++ [rbrace])) =
      (lbrace :: mid ++ [rbrace]) ++ ['\n'] := by
  unfold cleanFences
  rw [show wrapJsonFence (lbrace :: mid ++ [rbrace]) =
    tick :: ([tick, tick, 'j', 's', 'o', 'n', '\n'] ++ (lbrace :: mid ++ [rbrace]) ++
      ['\n', tick, tick]) ++ [tick] from by simp [wrapJsonFence]]
  rw [trimChars_cons_concat (by decide) (by decide)]
  rw [show (tick :: ([tick, tick, 'j', 's', 'o', 'n', '\n'] ++ (lbrace :: mid ++ [rbrace]) ++
      ['\n', tick, tick]) ++ [tick] : List Char) =
    tick :: tick :: tick :: 'j' :: 's' :: 'o' :: 'n' ::
      ('\n' :: (lbrace :: (mid ++ [rbrace, '\n', tick, tick, tick]))) from by simp]
  rw [stripJsonFencePrefix_wrap]
  rw [dropWhile_cons_of_pos (by decide), dropWhile_cons_of_neg (by decide)]
  rw [stripFencePrefix_no_op (by decide)]
  rw [show (lbrace :: (mid ++ [rbrace, '\n', tick, tick, tick]) : List Char) =
    (lbrace :: mid ++ [rbrace]) ++ ['\n', tick, tick, tick] from by simp]
  rw [stripFenceSuffix_wrap]

theorem cleanFences_wrapPlain (mid : List Char) :
    cleanFences (wrapPlainFence (lbrace :: mid ++ [rbrace])) =
      (lbrace :: mid ++ [rbrace]) ++ ['\n'] := by
  unfold cleanFences
  rw [show wrapPlainFence (lbrace :: mid ++ [rbrace]) =
    tick :: ([tick, tick, '\n'] ++ (lbrace :: mid ++ [rbrace]) ++
      ['\n', tick, tick]) ++ [tick] from by simp [wrapPlainFence]]
  rw [trimChars_cons_concat (by decide) (by decide)]
  rw [show (tick :: ([tick, tick, '\n'] ++ (lbrace :: mid ++ [rbrace]) ++
      ['\n', tick, tick]) ++ [tick] : List Char) =
    tick :: tick :: tick :: '\n' :: (lbrace :: (mid ++ [rbrace, '\n', tick, tick, tick]))
      from by simp]
  rw [stripJsonFencePrefix_ticks_not_json (by decide)]
  rw [show (tick :: tick :: tick :: '\n' ::
      (lbrace :: (mid ++ [rbrace, '\n', tick, tick, tick])) : List Char) =
    tick :: tick :: tick ::
      ('\n' :: (lbrace :: (mid ++ [rbrace, '\n', tick, tick, tick]))) from rfl]
  rw [stripFencePrefix_wrap]
  rw [dropWhile_cons_of_pos (by decide), dropWhile_cons_of_neg (by decide)]
  rw [show (lbrace :: (mid ++ [rbrace, '\n', tick, tick, tick]) : List Char) =
    (lbrace :: mid ++ [rbrace]) ++ ['\n', tick, tick, tick] from by simp]
  rw [stripFenceSuffix_wrap]

theorem cleanFences_object_text (mid : List Char) :
    cleanFences (lbrace :: mid ++ [rbrace]) = lbrace :: mid ++ [rbrace] := by
  unfold cleanFences
  rw [trimChars_cons_concat (by decide) (by decide)]
  rw [List.cons_append]
  rw [stripJsonFencePrefix_no_op (by decide)]
  rw [stripFencePrefix_no_op (by decide)]
  rw [← List.cons_append]
  rw [stripFenceSuffix_no_op (by decide) (by decide)]

theorem jsonParse_append_newline (t : List Char) :
    jsonParse (t ++ ['\n']) = jsonParse t := by
  unfold jsonParse
  rw [dropTrailingBy_concat_of_pos (by decide)]

theorem braceSpan_object_newline (mid : List Char) :
    braceSpan ((lbrace :: mid ++ [rbrace]) ++ ['\n']) =
      braceSpan (lbrace :: mid ++ [rbrace]) := by
  have hE : (((lbrace :: mid ++ [rbrace]) ++ ['\n']).dropWhile
        (fun c => !(c = lbrace))).reverse.dropWhile (fun c => !(c = rbrace)) =
      (((lbrace :: mid ++ [rbrace]) : List Char).dropWhile
        (fun c => !(c = lbrace))).reverse.dropWhile (fun c => !(c = rbrace)) := by
    rw [show ((lbrace :: mid ++ [rbrace]) ++ ['\n'] : List Char) =
      lbrace :: (mid ++ [rbrace, '\n']) from by simp]
    rw [show ((lbrace :: mid ++ [rbrace]) : List Char) =
      lbrace :: (mid ++ [rbrace]) from by simp]
    rw [dropWhile_cons_of_neg (by decide), dropWhile_cons_of_neg (by decide)]
    rw [show (lbrace :: (mid ++ [rbrace, '\n'])).reverse =
      '\n' :: rbrace :: (mid.reverse ++ [lbrace]) from by simp]
    rw [show (lbrace :: (mid ++ [rbrace])).reverse =
      rbrace :: (mid.reverse ++ [lbrace]) from by simp]
    rw [dropWhile_cons_of_pos (by decide)]
  unfold braceSpan
  rw [hE]

theorem pipelineParse_object_newline (mid : List Char) :
    pipelineParse ((lbrace :: mid ++ [rbrace]) ++ ['\n']) =
      pipelineParse (lbrace :: mid ++ [rbrace]) := by
  unfold pipelineParse
  rw [jsonParse_append_newline, braceSpan_object_newline]

/-- C7: a model reply consisting of a JSON object text wrapped in Markdown
code fences (```json ... ``` or ``` ... ```) parses to the same structured
result as the unwrapped text, both in the document-extraction pipeline
(`extractParsedOutput`) and in the plan projector (`planParsed`).  A JSON
object text is one beginning with `{` and ending with `}`. -/
theorem claim_C7_fence_roundtrip (mid : List Char) :
    extractParsedOutput (wrapJsonFence (lbrace :: mid ++ [rbrace])) =
      extractParsedOutput (lbrace :: mid ++ [rbrace]) ∧
    extractParsedOutput (wrapPlainFence (lbrace :: mid ++ [rbrace])) =
      extractParsedOutput (lbrace :: mid ++ [rbrace]) ∧
    planParsed (.str (wrapJsonFence (lbrace :: mid ++ [rbrace]))) =
      planParsed (.str (lbrace :: mid ++ [rbrace])) ∧
    planParsed (.str (wrapPlainFence (lbrace :: mid ++ [rbrace]))) =
      planParsed (.str (lbrace :: mid ++ [rbrace])) := by
  have hplan : ∀ s : List Char, planParsed (.str s) = extractParsedOutput s := fun s => rfl
  have h1 : extractParsedOutput (wrapJsonFence (lbrace :: mid ++ [rbrace])) =
      extractParsedOutput (lbrace :: mid ++ [rbrace]) := by
    unfold extractParsedOutput
    rw [cleanFences_wrapJson, cleanFences_object_text, pipelineParse_object_newline]
  have h2 : extractParsedOutput (wrapPlainFence (lbrace :: mid ++ [rbrace])) =
      extractParsedOutput (lbrace :: mid ++ [rbrace]) := by
    unfold extractParsedOutput
    rw [cleanFences_wrapPlain, cleanFences_object_text, pipelineParse_object_newline]
  exact ⟨h1, h2, by rw [hplan, hplan, h1], by rw [hplan, hplan, h2]⟩

/- ### The NUMERIC(12,2) wire-format round-trip -/

theorem isDigit_ne_dash {c : Char} (hc : Char.isDigit c = true) : ¬ c = '-' := by
  intro h
  subst h
  simp at hc

theorem jsNumberCore_eval (neg : Bool) (A : List Char)
    (hA : ∀ c ∈ A, Char.isDigit c = true)
    (d1 d0 : Nat) (h1 : d1 < 10) (h0 : d0 < 10) :
    jsNumberCore (A ++ '.' :: digitChar d1 :: [digitChar d0]) neg =
      some (mkRat ((if neg then -1 else 1) *
        ((parseDigitsNat A : Int) * 100 + ((d1 * 10 + d0 : Nat) : Int))) 100) := by
  have hTake : (A ++ '.' :: digitChar d1 :: [digitChar d0]).takeWhile Char.isDigit = A :=
    takeWhile_digits_append _ _ _ hA (by decide)
  have hDrop : (A ++ '.' :: digitChar d1 :: [digitChar d0]).dropWhile Char.isDigit =
      '.' :: digitChar d1 :: [digitChar d0] := dropWhile_digits_append _ _ _ hA (by decide)
  have hF : parseDigitsNat (digitChar d1 :: [digitChar d0]) = d1 * 10 + d0 := by
    unfold parseDigitsNat
    simp [List.foldl_cons, parseDigitVal_digitChar _ h1, parseDigitVal_digitChar _ h0]
  unfold jsNumberCore
  rw [hTake, hDrop]
  rw [if_neg (by simp)]
  rw [if_pos (by rfl)]
  rw [if_pos (by
    simp only [List.tail_cons, List.all_cons, List.all_nil,
      isDigit_digitChar _ h1, isDigit_digitChar _ h0, Bool.and_true, Bool.and_self]
    simp [List.isEmpty_cons])]
  simp only [List.tail_cons, hF, List.length_cons, List.length_nil]
  norm_num

theorem jsNumberParse_decimalOfCents (n : Int) :
    jsNumberParse (decimalOfCents n) = some (mkRat n 100) := by
  have hA := natToChars_digits (n.natAbs / 100)
  have hne := natToChars_ne_nil (n.natAbs / 100)
  have hm1 : n.natAbs / 10 % 10 < 10 := Nat.mod_lt _ (by omega)
  have hm0 : n.natAbs % 10 < 10 := Nat.mod_lt _ (by omega)
  rcases le_or_lt 0 n with hn | hn
  · lift n to ℕ using hn with m
    simp only [Int.natAbs_ofNat] at hA hne hm1 hm0 ⊢
    have hd : decimalOfCents (m : Int) = natToChars (m / 100) ++
        '.' :: digitChar (m / 10 % 10) :: [digitChar (m % 10)] := by
      unfold decimalOfCents
      rw [if_neg (by omega)]
      simp
    obtain ⟨a, A2, hAeq⟩ := List.exists_cons_of_ne_nil hne
    have hhead : (natToChars (m / 100) ++
        '.' :: digitChar (m / 10 % 10) :: [digitChar (m % 10)]).headD ' ' = a := by
      rw [hAeq]
      rfl
    have hadig : Char.isDigit a = true := hA a (by rw [hAeq]; simp)
    unfold jsNumberParse
    rw [hd, hhead, if_neg (isDigit_ne_dash hadig),
      jsNumberCore_eval false _ hA _ _ hm1 hm0, parseDigitsNat_natToChars]
    simp only [Bool.false_eq_true, if_false, one_mul]
    have hval : ((m / 100 : Nat) : Int) * 100 + ((m / 10 % 10 * 10 + m % 10 : Nat) : Int) =
        (m : Int) := by omega
    rw [hval]
  · obtain ⟨m, rfl, hnat⟩ : ∃ m : Nat, n = -(m : Int) ∧ n.natAbs = m := by
      cases n with
      | ofNat k =>
        rw [Int.ofNat_eq_natCast] at hn
        exact absurd hn (by omega)
      | negSucc k => exact ⟨k + 1, by simp [Int.negSucc_eq], rfl⟩
    simp only [hnat] at hA hne hm1 hm0
    have hd : decimalOfCents (-(m : Int)) = '-' :: (natToChars (m / 100) ++
        '.' :: digitChar (m / 10 % 10) :: [digitChar (m % 10)]) := by
      unfold decimalOfCents
      rw [if_pos hn, hnat]
      simp
    unfold jsNumberParse
    rw [hd]
    rw [show ('-' :: (natToChars (m / 100) ++
        '.' :: digitChar (m / 10 % 10) :: [digitChar (m % 10)])).headD ' ' = '-'
      from rfl]
    rw [if_pos rfl, List.tail_cons,
      jsNumberCore_eval true _ hA _ _ hm1 hm0, parseDigitsNat_natToChars]
    simp only [if_true, neg_mul, one_mul]
    have hval : -(((m / 100 : Nat) : Int) * 100 + ((m / 10 % 10 * 10 + m % 10 : Nat) : Int)) =
        -(m : Int) := by omega
    rw [hval]

/- ### C5: query ordering and numeric coercion -/

/-- The `ORDER BY service_date NULLS LAST, created_at DESC` order on the
response records. -/
def outRel (a b : MaintenanceOut) : Prop :=
  sdKey a.serviceDate < sdKey b.serviceDate ∨
    (sdKey a.serviceDate = sdKey b.serviceDate ∧ b.createdAt ≤ a.createdAt)

/-- C5: `GET /api/maintenance/:tokenId` returns exactly the persisted records
for the token id (as a permutation of the filtered store contents), ordered by
`serviceDate` ascending with nulls last and `createdAt` descending as the
tiebreak, and every non-null `totalCost` in the response is a numeric value
(the cents value over 100) regardless of the store's decimal wire format. -/
theorem claim_C5_query_by_token (db : MaintenanceDB) (t : Int) :
    (queryByToken db t).Perm
      ((db.rows.filter (fun r => decide (r.tokenId = t))).map rowOut) ∧
    List.Pairwise outRel (queryByToken db t) ∧
    (∀ rec ∈ queryByToken db t, rec.tokenId = t) ∧
    (∀ rec ∈ queryByToken db t,
      rec.totalCost = none ∨ ∃ cents : Int, rec.totalCost = some (mkRat cents 100)) := by
  refine ⟨?_, ?_, ?_, ?_⟩
  · exact (List.perm_insertionSort pgRel _).map rowOut
  · have hs : List.Pairwise pgRel
        (List.insertionSort pgRel (db.rows.filter (fun r => decide (r.tokenId = t)))) :=
      List.sorted_insertionSort pgRel _
    exact hs.map rowOut (fun a b hab => hab)
  · intro rec hrec
    unfold queryByToken at hrec
    obtain ⟨r, hr, rfl⟩ := List.mem_map.mp hrec
    rw [List.mem_insertionSort] at hr
    have := (List.mem_filter.mp hr).2
    simpa [rowOut] using of_decide_eq_true this
  · intro rec hrec
    unfold queryByToken at hrec
    obtain ⟨r, _, rfl⟩ := List.mem_map.mp hrec
    match hc : r.totalCostCents with
    | none => exact Or.inl (by simp [rowOut, hc])
    | some cents =>
      refine Or.inr ⟨cents, ?_⟩
      simp [rowOut, hc, jsNumberParse_decimalOfCents]

/-- An example store: two rows for token 7 (one with a NULL service date and
a 19.99 cost, one dated with a NULL cost) and one row for another vehicle. -/
def exDB : MaintenanceDB :=
  ⟨[⟨1, 7, none, some 1999, none, none, none, ("out1".data), 5⟩,
    ⟨2, 7, some 10, none, some ("oil".data), none, none, ("out2".data), 9⟩,
    ⟨3, 8, some 4, some 500, none, none, none, ("other".data), 1⟩], 4⟩

theorem claim_C5_query_by_token_witness :
    (rowOut ⟨1, 7, none, some 1999, none, none, none, ("out1".data), 5⟩).tokenId = 7 ∧
    ((rowOut ⟨1, 7, none, some 1999, none, none, none, ("out1".data), 5⟩).totalCost = none ∨
      ∃ cents : Int,
        (rowOut ⟨1, 7, none, some 1999, none, none, none, ("out1".data), 5⟩).totalCost =
          some (mkRat cents 100)) := by
  have h := claim_C5_query_by_token exDB 7
  have hmem : rowOut ⟨1, 7, none, some 1999, none, none, none, ("out1".data), 5⟩ ∈
      queryByToken exDB 7 := by
    unfold queryByToken
    rw [List.mem_map]
    refine ⟨_, ?_, rfl⟩
    rw [List.mem_insertionSort, List.mem_filter]
    exact ⟨by simp [exDB], by decide⟩
  exact ⟨h.2.2.1 _ hmem, h.2.2.2 _ hmem⟩

/- ### C3: null-field round-trip through the store -/

/-- C3: a record inserted with every optional field NULL (`serviceDate`,
`totalCost`, `description`; `summary` and `mileage` are not in the insert's
column list and default to NULL, and are not part of the query's column list)
is retrievable by `queryByToken` with its `outputText` intact and every other
extracted field of the response `none` — not coerced to 0 or the empty
string. -/
theorem claim_C3_null_roundtrip (db : MaintenanceDB) (now : Int) (t : Int)
    (out : List Char) (db2 : MaintenanceDB)
    (h : insertRecord db now (some t) none none none out = some db2) :
    ∃ rec ∈ queryByToken db2 t,
      rec.id = db.nextId ∧ rec.outputText = out ∧
      rec.serviceDate = none ∧ rec.totalCost = none ∧ rec.description = none := by
  unfold insertRecord at h
  rw [Option.some_inj] at h
  subst h
  refine ⟨rowOut ⟨db.nextId, t, none, none, none, none, none, out, now⟩, ?_,
    rfl, rfl, rfl, rfl, rfl⟩
  unfold queryByToken
  rw [List.mem_map]
  refine ⟨⟨db.nextId, t, none, none, none, none, none, out, now⟩, ?_, rfl⟩
  rw [List.mem_insertionSort, List.mem_filter]
  exact ⟨by simp, by simp⟩

theorem claim_C3_null_roundtrip_witness :
    ∃ rec ∈ queryByToken ⟨[⟨1, 7, none, none, none, none, none, ("raw".data), 0⟩], 2⟩ 7,
      rec.id = 1 ∧ rec.outputText = ("raw".data) ∧
      rec.serviceDate = none ∧ rec.totalCost = none ∧ rec.description = none :=
  claim_C3_null_roundtrip ⟨[], 1⟩ 0 7 ("raw".data)
    ⟨[⟨1, 7, none, none, none, none, none, ("raw".data), 0⟩], 2⟩ rfl

/- ### C6: persistence is best-effort -/

/-- C6: when the store insert fails (here: the `dbFail` oracle standing for
any database error at the `INSERT`), the failure is swallowed: the handler's
response is exactly the response of a run in which persistence succeeds, and
the store is left unchanged — the extraction result (raw content plus parsed
structure) still reaches the caller. -/
theorem claim_C6_persistence_best_effort (dateParse : Json → Int) (now : Int)
    (content : ModelContent) (body query hdr : Option (List Char)) (db : MaintenanceDB) :
    extractHandler dateParse now (.ok content) body query hdr db true =
      ((extractHandler dateParse now (.ok content) body query hdr db false).1, db) ∧
    (extractHandler dateParse now (.ok content) body query hdr db true).1 =
      ⟨true, some content, extractParsedOutput (extractOutputText content), none⟩ :=
  ⟨rfl, rfl⟩

/- ### C9: falsy token ids are never persisted, silently -/

/-- C9: when the request's tokenId is absent, non-numeric or `"0"`, the
computed token id is `null` (`parseInt(...) || null`); the insert then
violates the `token_id NOT NULL` constraint and fails, the failure is
swallowed, and the caller still receives the successful extraction response
while the store is unchanged — such documents are never persisted. -/
theorem claim_C9_falsy_token_id (dateParse : Json → Int) (now : Int)
    (content : ModelContent) (body query hdr : Option (List Char)) (db : MaintenanceDB) :
    computeTokenId none none none = none ∧
    computeTokenId (some ("abc".data)) none none = none ∧
    computeTokenId (some ['0']) none none = none ∧
    (computeTokenId body query hdr = none →
      (∀ sd cost desc out, insertRecord db now (computeTokenId body query hdr)
        sd cost desc out = none) ∧
      extractHandler dateParse now (.ok content) body query hdr db false =
        (⟨true, some content, extractParsedOutput (extractOutputText content), none⟩, db)) := by
  refine ⟨rfl, rfl, rfl, fun h => ⟨fun sd cost desc out => by rw [h]; rfl, ?_⟩⟩
  have hh : extractHandler dateParse now (.ok content) body query hdr db false =
      (⟨true, some content, extractParsedOutput (extractOutputText content), none⟩,
        (insertRecord db now (computeTokenId body query hdr)
          (serviceDateOf dateParse (extractParsedOutput (extractOutputText content)))
          (totalCostOf (extractParsedOutput (extractOutputText content)))
          (descriptionOf (extractParsedOutput (extractOutputText content)))
          (extractOutputText content)).getD db) := rfl
  rw [hh, h]
  rfl

theorem claim_C9_falsy_token_id_witness :
    extractHandler (fun _ => 0) 0 (.ok (.plain ("hello".data)))
        (some ("abc".data)) none none ⟨[], 1⟩ false =
      (⟨true, some (.plain ("hello".data)),
        extractParsedOutput (extractOutputText (.plain ("hello".data))), none⟩, ⟨[], 1⟩) :=
  ((claim_C9_falsy_token_id (fun _ => 0) 0 (.plain ("hello".data))
    (some ("abc".data)) none none ⟨[], 1⟩).2.2.2 rfl).2

/- ### C10: the `||` chain over cost fields -/

/-- C10 counterexample: the claim says a zero cost as the string `"0"` in an
earlier field is skipped as falsy, and that when no field supplies a truthy
value the stored cost is null; but `"0"` is a truthy JavaScript string and is
parsed to 0, and when every field is falsy the chain yields the *value* of
the last operand, so `{amount: 0}` also stores 0 rather than null. -/
theorem claim_C10_total_cost_counterexample :
    totalCostOf (some (.obj [("totalCost".data, .str ['0'])])) = some 0 ∧
    totalCostOf (some (.obj [("amount".data, .num 0)])) = some 0 :=
  ⟨rfl, rfl⟩

/-- C10 (amended): the total-cost candidate is chosen by `||` chaining over
`totalCost`, `total_cost`, `amount`, so the *number* 0 in an earlier field is
skipped as falsy and a later truthy field wins; when no field is truthy the
chain yields the last operand's value, so the stored cost is null when
`amount` is absent but 0 when `amount` is the number 0; and the *string*
`"0"` is truthy and is stored as 0. -/
theorem claim_C10_total_cost_chain (p : Option Json) :
    (getField p ("totalCost".data) = some (.num 0) →
      getField p ("total_cost".data) = none → getField p ("amount".data) = none →
      totalCostOf p = none) ∧
    (getField p ("totalCost".data) = some (.num 0) →
      getField p ("total_cost".data) = none →
      getField p ("amount".data) = some (.num 5) →
      totalCostOf p = some 5) ∧
    totalCostOf (some (.obj [("totalCost".data, .str ['0'])])) = some 0 ∧
    totalCostOf (some (.obj [("amount".data, .num 0)])) = some 0 := by
  refine ⟨fun h1 h2 h3 => ?_, fun h1 h2 h3 => ?_, rfl, rfl⟩
  · unfold totalCostOf
    rw [h1, h2, h3]
    rfl
  · unfold totalCostOf
    rw [h1, h2, h3]
    rfl

theorem claim_C10_total_cost_chain_witness :
    totalCostOf (some (.obj [("totalCost".data, .num 0)])) = none ∧
    totalCostOf (some (.obj [("totalCost".data, .num 0),
      ("amount".data, .num 5)])) = some 5 :=
  ⟨(claim_C10_total_cost_chain _).1 rfl rfl rfl,
    (claim_C10_total_cost_chain _).2.1 rfl rfl rfl⟩
